import Mathlib

/-!
Verification of the address-transaction endpoints of the Kaspa REST server
(`endpoints/get_address_transactions.py`) against their specification.

The relational store is embedded shallowly:

* the `addresses_transactions` mapping table is a `List TxAddrMapping`
  (one element per row, in the storage engine's arbitrary physical order);
* the activity presence table of `POST /addresses/active` is a
  `List String` of payloads that have at least one row;
* a SQL `SELECT ... WHERE ... ORDER BY block_time DESC` is
  `List.filter` followed by `List.insertionSort` with the descending
  order on `block_time` (`insertionSort` returns one sorted permutation,
  exactly what `ORDER BY` on a non-key column guarantees);
* `LIMIT n OFFSET k` is `List.drop k` then `List.take n`, matching SQL
  semantics (SQLAlchemy's select builder applies `order_by` before
  `limit`/`offset` regardless of the method-chaining order);
* wall-clock time (`time.time() * 1000`) is an explicit `now` argument;
* the store round trips performed by a handler are recorded in an event
  list so that "the second query is issued" is a statable property.

Python's `set` of transaction ids is a `Finset String`; `raise` /
unhandled exceptions are an `Except` error value.
-/

/-- One row of the `addresses_transactions` mapping table
(model `TxAddrMapping` in the source). -/
structure TxAddrMapping where
  address : String
  transaction_id : String
  block_time : Nat
deriving DecidableEq, Repr

/-- Descending order on `block_time`, the sort key of
`order_by(TxAddrMapping.block_time.desc())`. -/
def pageOrd (a b : TxAddrMapping) : Prop := b.block_time ≤ a.block_time

instance : DecidableRel pageOrd := fun a b => Nat.decLe b.block_time a.block_time

instance : IsTotal TxAddrMapping pageOrd := ⟨fun a b => Nat.le_total b.block_time a.block_time⟩

instance : IsTrans TxAddrMapping pageOrd := ⟨fun _ _ _ h1 h2 => Nat.le_trans h2 h1⟩

/-! ## POST /addresses/active (`get_addresses_active`) -/

/-- One entry of the response list of `POST /addresses/active`
(model `TxIdResponse` in the source). -/
structure TxIdResponse where
  address : String
  active : Bool
deriving DecidableEq, Repr

/-- How a request can fail.  `indexError` models a Python `IndexError`
escaping the handler (an unhandled exception, surfaced by the framework
as a 500-class server error); `sqlError` models the database driver
rejecting a malformed SQL statement at `s.execute`, likewise an
unhandled exception surfaced as a 500; `validationError` models a
client-visible 400-class validation rejection. -/
inductive ApiError where
  | indexError
  | sqlError
  | validationError
deriving DecidableEq, Repr

/-- Store interactions of `get_addresses_active`; the handler performs at
most one (`s.execute(query, params)`). -/
inductive ActiveEvent where
  | storeQuery
deriving DecidableEq, Repr

/-- Python `str.split(":")`, written structurally over the character
list: cut the string at every `:`.  (`"a".split(":") == ["a"]`,
`"a:b:c".split(":") == ["a","b","c"]`, `"".split(":") == [""]`.) -/
def splitColonAux : List Char → List Char → List String
  | [], acc => [String.mk acc.reverse]
  | c :: cs, acc =>
    if c = ':' then String.mk acc.reverse :: splitColonAux cs []
    else splitColonAux cs (c :: acc)

/-- `address.split(":")` as a function on `String`. -/
def pySplitColon (s : String) : List String := splitColonAux s.data []

/-- `address.split(":")[1]`: the substring between the first and second
`:`.  `none` models the `IndexError` raised when the address has no `:`
(`split` then yields a single-element list and index 1 is out of range). -/
def addressPayload (a : String) : Option String := (pySplitColon a).get? 1

/-- The `params` dictionary built at lines 121-123 of the source: the
payload of every input address, in input order.  The comprehension raises
(`none`) as soon as one address is malformed, before the store query runs. -/
def paramsPayloads : List String → Option (List String)
  | [] => some []
  | a :: rest =>
    match addressPayload a, paramsPayloads rest with
    | some p, some ps => some (p :: ps)
    | _, _ => none

/-- The anti-join `VALUES ... LEFT JOIN addresses_transactions t ON
subquery.address = t.address WHERE t.address IS NULL`: the input payloads
that have no row in the activity table.  The storage engine may hand the
result rows back in any order; theorems below quantify over permutations
of this list. -/
def nonActiveQuery (table : List String) (payloads : List String) : List String :=
  payloads.filter (fun p => decide (p ∉ table))

/-- The response list built at lines 128-131 of the source: one entry per
input address, in input order, active iff the payload is not among the
rows returned by the anti-join.  The source re-splits each address; here
the payload computed for `params` is reused, which is the same string
because `split` is pure. -/
def buildActiveResponses (nonActive : List String) (addresses payloads : List String) :
    List TxIdResponse :=
  (addresses.zip payloads).map (fun ap => ⟨ap.1, decide (ap.2 ∉ nonActive)⟩)

/-- `POST /addresses/active` (`get_addresses_active` in the source):
build the payload parameters (possibly raising `IndexError` before the
store is touched), execute the anti-join, mark each input address active
iff its payload was not returned.  The second component records which
store queries were issued.  On an empty input list the `",".join` at
lines 113-118 of the source produces `FROM (VALUES ) AS subquery
(address)` — invalid SQL — so the issued `s.execute` fails and the
request errors (`sqlError`, a 500) instead of returning an empty
result list. -/
def get_addresses_active (table : List String) (addresses : List String) :
    Except ApiError (List TxIdResponse) × List ActiveEvent :=
  match paramsPayloads addresses with
  | none => (Except.error ApiError.indexError, [])
  | some payloads =>
    match addresses with
    | [] => (Except.error ApiError.sqlError, [ActiveEvent.storeQuery])
    | _ :: _ =>
      (Except.ok (buildActiveResponses (nonActiveQuery table payloads) addresses payloads),
       [ActiveEvent.storeQuery])

/-! ## GET /addresses/{address}/full-transactions (`get_full_transactions_for_address`) -/

/-- `select(...).filter(TxAddrMapping.address == kaspaAddress)`: the rows
of the mapping table for one address. -/
def addressRows (db : List TxAddrMapping) (address : String) : List TxAddrMapping :=
  db.filter (fun r => decide (r.address = address))

/-- The offset pager `GET /addresses/{address}/full-transactions`:
rows for the address ordered by `block_time` descending, `OFFSET offset`
then `LIMIT limit` applied, projected to `transaction_id`
(lines 86-94 of the source). -/
def get_full_transactions_for_address (db : List TxAddrMapping) (address : String)
    (limit offset : Nat) : List String :=
  (((((addressRows db address).insertionSort pageOrd).drop offset).take limit).map
    (·.transaction_id))

/-! ## GET /addresses/{address}/full-transactions-page
(`get_full_transactions_for_address_page`) -/

/-- Store interactions and the hydration call of the time-cursor pager,
in the order the handler performs them. -/
inductive PageEvent where
  | firstQuery
  | boundaryQuery
  | hydration
deriving DecidableEq, Repr

/-- What the time-cursor pager hands back: the deduplicated identifier
set passed to `search_for_transactions`, the response headers set on the
`Response` object, and the recorded store/hydration events. -/
structure PageResult where
  txIds : Finset String
  headers : List (String × String)
  events : List PageEvent
deriving DecidableEq

/-- `before = int(time.time() * 1000) if before == 0 else before`
(line 170 of the source): a zero/unset cursor defaults to the current
wall clock `now`. -/
def effectiveBefore (now before : Nat) : Nat := if before = 0 then now else before

/-- The filter of the first query: rows of the address strictly older
than the cursor (`block_time < before`). -/
def addressRowsBefore (db : List TxAddrMapping) (address : String) (before : Nat) :
    List TxAddrMapping :=
  db.filter (fun r => decide (r.address = address ∧ r.block_time < before))

/-- The first query of the pager (lines 171-177): rows for the address
before the cursor, ordered by `block_time` descending, `LIMIT limit`. -/
def firstBatch (db : List TxAddrMapping) (address : String) (limit before : Nat) :
    List TxAddrMapping :=
  ((addressRowsBefore db address before).insertionSort pageOrd).take limit

/-- The boundary query (lines 189-193): every transaction id of the
address with `block_time` equal to the oldest time of the first batch.
Note it carries no `before` filter and no limit. -/
def sameBlockTimeIds (db : List TxAddrMapping) (address : String) (t : Nat) : List String :=
  (db.filter (fun r => decide (r.address = address ∧ r.block_time = t))).map
    (·.transaction_id)

/-- The non-empty branch of the pager (lines 183-199): build the id set
of the batch, union in the boundary ids when the batch is full
(`len(tx_ids_and_block_times) == limit`), set both response headers from
the final set and the oldest time, and hand the set to hydration. -/
def pageNonEmpty (db : List TxAddrMapping) (address : String) (limit : Nat)
    (batch : List TxAddrMapping) (oldest : Nat) : PageResult :=
  let baseIds := (batch.map (·.transaction_id)).toFinset
  let finalIds :=
    if batch.length = limit then baseIds ∪ (sameBlockTimeIds db address oldest).toFinset
    else baseIds
  { txIds := finalIds
    headers :=
      [("X-Current-Page", toString finalIds.card),
       ("X-Oldest-Epoch-Millis", toString oldest)]
    events :=
      [PageEvent.firstQuery] ++
        (if batch.length = limit then [PageEvent.boundaryQuery] else []) ++
        [PageEvent.hydration] }

/-- The time-cursor pager body after the cursor default: run the first
query; on zero rows return the empty page at once (lines 180-181, no
headers, no boundary query, no hydration); otherwise take the oldest
block time from the last fetched row (`tx_ids_and_block_times[-1][1]`)
and continue with the non-empty branch. -/
def pageWithCursor (db : List TxAddrMapping) (address : String) (limit before : Nat) :
    PageResult :=
  let batch := firstBatch db address limit before
  match batch.getLast? with
  | none => { txIds := ∅, headers := [], events := [PageEvent.firstQuery] }
  | some lastRow => pageNonEmpty db address limit batch lastRow.block_time

/-- `GET /addresses/{address}/full-transactions-page`
(`get_full_transactions_for_address_page` in the source). -/
def get_full_transactions_for_address_page (db : List TxAddrMapping) (address : String)
    (limit before now : Nat) : PageResult :=
  pageWithCursor db address limit (effectiveBefore now before)

/-! ## Lemmas about the activity check -/

theorem paramsPayloads_length : ∀ {addresses payloads : List String},
    paramsPayloads addresses = some payloads → payloads.length = addresses.length := by
  intro addresses
  induction addresses with
  | nil =>
    intro payloads h
    simp only [paramsPayloads, Option.some.injEq] at h
    subst h
    rfl
  | cons a rest ih =>
    intro payloads h
    simp only [paramsPayloads] at h
    cases ha : addressPayload a <;> rw [ha] at h
    · simp at h
    · cases hr : paramsPayloads rest <;> rw [hr] at h
      · simp at h
      · simp only [Option.some.injEq] at h
        subst h
        simp [ih hr]

theorem paramsPayloads_eq_none : ∀ {addresses : List String} {a : String},
    a ∈ addresses → addressPayload a = none → paramsPayloads addresses = none := by
  intro addresses
  induction addresses with
  | nil => intro a ha _; cases ha
  | cons b rest ih =>
    intro a ha hm
    simp only [paramsPayloads]
    rcases List.mem_cons.mp ha with rfl | hmem
    · rw [hm]
    · rw [ih hmem hm]
      cases addressPayload b <;> rfl

theorem buildActiveResponses_congr {na na2 : List String}
    (h : ∀ p, p ∈ na ↔ p ∈ na2) (addresses payloads : List String) :
    buildActiveResponses na addresses payloads = buildActiveResponses na2 addresses payloads := by
  unfold buildActiveResponses
  refine List.map_congr_left fun ap _ => ?_
  have : decide (ap.2 ∉ na) = decide (ap.2 ∉ na2) :=
    decide_eq_decide.mpr (not_congr (h ap.2))
  rw [this]

theorem activeFlags_eq {table addresses payloads : List String} {res : List TxIdResponse}
    (hp : paramsPayloads addresses = some payloads)
    (hres : (get_addresses_active table addresses).1 = Except.ok res) :
    res.map (·.active) =
      payloads.map (fun p => decide (p ∉ nonActiveQuery table payloads)) := by
  have hlen := paramsPayloads_length hp
  have hcomp :
      ((fun r : TxIdResponse => r.active) ∘
        fun ap : String × String =>
          (⟨ap.1, decide (ap.2 ∉ nonActiveQuery table payloads)⟩ : TxIdResponse)) =
      (fun p => decide (p ∉ nonActiveQuery table payloads)) ∘ Prod.snd := rfl
  cases addresses with
  | nil => simp [get_addresses_active, paramsPayloads] at hres
  | cons a rest =>
    simp only [get_addresses_active, hp, Except.ok.injEq] at hres
    subst hres
    unfold buildActiveResponses
    rw [List.map_map, hcomp, ← List.map_map,
      List.map_snd_zip (a :: rest) payloads (le_of_eq hlen)]

/-! ## Claims about POST /addresses/active -/

/-- C2 (counterexample): on the input list `["kaspaqnoseparator"]`, whose
single address has no `:` separator, the batch activity check fails with
the unhandled `IndexError` of `address.split(":")[1]` — a 500-class
server error, not the client-visible validation error the claim
requires — although it does fail before any store query runs. -/
theorem C2_counterexample :
    (get_addresses_active [] ["kaspaqnoseparator"]).1 = Except.error ApiError.indexError ∧
    (get_addresses_active [] ["kaspaqnoseparator"]).2 = [] ∧
    ApiError.indexError ≠ ApiError.validationError := by
  refine ⟨rfl, rfl, by decide⟩

/-- C2 (amended): for every input list containing an address without a
`:` separator, the batch activity check fails fast — before any store
query is executed (the recorded event list is empty) — but with an
unhandled `IndexError` surfaced as a server error, not with a
client-visible 400-class validation error. -/
theorem C2_malformed_fails_before_query (table addresses : List String)
    (h : ∃ a ∈ addresses, addressPayload a = none) :
    get_addresses_active table addresses = (Except.error ApiError.indexError, []) := by
  obtain ⟨a, ha, hm⟩ := h
  unfold get_addresses_active
  rw [paramsPayloads_eq_none ha hm]

/-- Witness for C2 (amended): a two-address batch with one malformed
entry errors with `IndexError` and performs no store query. -/
theorem C2_malformed_fails_before_query_witness :
    get_addresses_active ["abc"] ["kaspaqnoseparator", "kaspa:abc"] =
      (Except.error ApiError.indexError, []) :=
  C2_malformed_fails_before_query ["abc"] ["kaspaqnoseparator", "kaspa:abc"]
    ⟨"kaspaqnoseparator", by decide, by decide⟩

/-- C6 (counterexample): the empty input list is a list of well-formed
addresses, yet the batch activity check does not return the
length-zero result list `Except.ok []` the claim requires: the
`",".join` over zero addresses yields an empty `VALUES` clause —
invalid SQL — so the executed query fails and the request errors out. -/
theorem C6_counterexample :
    (get_addresses_active ["pa"] []).1 = Except.error ApiError.sqlError ∧
    (get_addresses_active ["pa"] []).1 ≠ Except.ok [] := by
  refine ⟨rfl, fun h => ?_⟩
  exact Except.noConfusion h

/-- C6 (amended): for every nonempty input list of well-formed
addresses, the batch activity check returns `Except.ok` of a list of the
same length as the input, whose `i`-th entry echoes the `i`-th input
address and is marked active iff its payload is not in the inactive set
returned by the anti-join query — and the result is the same for any
permutation `na` of the anti-join's rows, so it does not depend on the
order in which the store returns them.  (The empty input list instead
fails with a SQL error from the empty generated `VALUES` clause.) -/
theorem C6_active_order_preserved (table addresses payloads na : List String)
    (hne : addresses ≠ [])
    (hp : paramsPayloads addresses = some payloads)
    (hperm : na.Perm (nonActiveQuery table payloads)) :
    (get_addresses_active table addresses).1 =
      Except.ok (buildActiveResponses na addresses payloads) ∧
    (buildActiveResponses na addresses payloads).length = addresses.length ∧
    ∀ i (ha : i < addresses.length) (hpl : i < payloads.length)
      (hr : i < (buildActiveResponses na addresses payloads).length),
      (buildActiveResponses na addresses payloads).get ⟨i, hr⟩ =
        ⟨addresses.get ⟨i, ha⟩, decide (payloads.get ⟨i, hpl⟩ ∉ na)⟩ := by
  have hlen := paramsPayloads_length hp
  refine ⟨?_, ?_, ?_⟩
  · cases addresses with
    | nil => exact absurd rfl hne
    | cons a rest =>
      simp only [get_addresses_active, hp]
      exact congrArg Except.ok
        (buildActiveResponses_congr (fun p => (hperm.mem_iff).symm) (a :: rest) payloads)
  · simp [buildActiveResponses, List.length_zip, hlen]
  · intro i ha hpl hr
    simp [buildActiveResponses, List.get_eq_getElem, List.getElem_map, List.getElem_zip]

/-- Witness for C6: input `[A, B, C]` where only `B`'s payload has no
transactions yields exactly `[{A, true}, {B, false}, {C, true}]`. -/
theorem C6_active_order_preserved_witness :
    (get_addresses_active ["pa", "pc"] ["kaspa:pa", "kaspa:pb", "kaspa:pc"]).1 =
      Except.ok
        [⟨"kaspa:pa", true⟩, ⟨"kaspa:pb", false⟩, ⟨"kaspa:pc", true⟩] := by
  have h := C6_active_order_preserved ["pa", "pc"] ["kaspa:pa", "kaspa:pb", "kaspa:pc"]
    ["pa", "pb", "pc"] ["pb"] (by decide) (by decide) (by decide)
  exact h.1.trans (congrArg Except.ok (by decide))

/-- C10: the active flag of each entry of the batch activity check is a
function of the entry's payload (the substring between the first and
second `:`) alone: two runs over the same store whose inputs have the
same payload list produce the same flag list, and within one run two
entries with equal payloads get equal flags, whatever their prefixes or
trailing components. -/
theorem C10_active_depends_only_on_payload (table addresses addresses2 payloads : List String)
    (h1 : paramsPayloads addresses = some payloads)
    (h2 : paramsPayloads addresses2 = some payloads) :
    (∀ res res2, (get_addresses_active table addresses).1 = Except.ok res →
        (get_addresses_active table addresses2).1 = Except.ok res2 →
        res.map (·.active) = res2.map (·.active)) ∧
    (∀ res, (get_addresses_active table addresses).1 = Except.ok res →
        ∀ i j (hi : i < payloads.length) (hj : j < payloads.length)
          (hi2 : i < res.length) (hj2 : j < res.length),
          payloads.get ⟨i, hi⟩ = payloads.get ⟨j, hj⟩ →
          (res.get ⟨i, hi2⟩).active = (res.get ⟨j, hj2⟩).active) := by
  constructor
  · intro res res2 hr1 hr2
    rw [activeFlags_eq h1 hr1, activeFlags_eq h2 hr2]
  · intro res hr i j hi hj hi2 hj2 heq
    have hm := activeFlags_eq h1 hr
    have hgi : ∀ k (hk : k < payloads.length) (hk2 : k < res.length),
        (res.get ⟨k, hk2⟩).active =
          decide (payloads.get ⟨k, hk⟩ ∉ nonActiveQuery table payloads) := by
      intro k hk hk2
      have e := congrArg (fun l => l[k]?) hm
      simp only [List.getElem?_map, List.getElem?_eq_getElem hk2, List.getElem?_eq_getElem hk,
        Option.map_some'] at e
      simpa [List.get_eq_getElem] using Option.some.inj e
    rw [hgi i hi hi2, hgi j hj hj2, heq]

/-- Witness for C10: `"kaspa:x"` and `"testnet:x:extra"` share the
payload `"x"`, so over the same store their flag lists coincide. -/
theorem C10_active_depends_only_on_payload_witness :
    ((get_addresses_active ["x"] ["kaspa:x"]).1 =
        Except.ok [⟨"kaspa:x", true⟩]) ∧
    ((get_addresses_active ["x"] ["testnet:x:extra"]).1 =
        Except.ok [⟨"testnet:x:extra", true⟩]) ∧
    ([⟨"kaspa:x", true⟩] : List TxIdResponse).map (·.active) =
      ([⟨"testnet:x:extra", true⟩] : List TxIdResponse).map (·.active) := by
  refine ⟨rfl, rfl, ?_⟩
  exact (C10_active_depends_only_on_payload ["x"] ["kaspa:x"] ["testnet:x:extra"] ["x"]
    (by decide) (by decide)).1 _ _ rfl rfl

/-! ## Lemmas about the time-cursor pager -/

theorem pageWithCursor_of_empty {db : List TxAddrMapping} {address : String}
    {limit before : Nat} (h : (firstBatch db address limit before).getLast? = none) :
    pageWithCursor db address limit before =
      { txIds := ∅, headers := [], events := [PageEvent.firstQuery] } := by
  simp only [pageWithCursor, h]

theorem pageWithCursor_of_last {db : List TxAddrMapping} {address : String}
    {limit before : Nat} {lastRow : TxAddrMapping}
    (h : (firstBatch db address limit before).getLast? = some lastRow) :
    pageWithCursor db address limit before =
      pageNonEmpty db address limit (firstBatch db address limit before) lastRow.block_time := by
  simp only [pageWithCursor, h]

/-! ## Claims about the time-cursor pager: cursor default, empty page, headers -/

/-- C8: with `before = 0` (the query default) the effective cursor of the
time-cursor pager is the wall clock `now`, so the first page is the most
recent activity, and for every `before > 0` the given value is used
unchanged. -/
theorem C8_before_defaults_to_now (db : List TxAddrMapping) (address : String)
    (limit before now : Nat) :
    effectiveBefore now 0 = now ∧
    (0 < before → effectiveBefore now before = before) ∧
    get_full_transactions_for_address_page db address limit 0 now =
      pageWithCursor db address limit now ∧
    (0 < before →
      get_full_transactions_for_address_page db address limit before now =
        pageWithCursor db address limit before) := by
  have h0 : effectiveBefore now 0 = now := by simp [effectiveBefore]
  have hpos : 0 < before → effectiveBefore now before = before := by
    intro h
    simp [effectiveBefore, Nat.pos_iff_ne_zero.mp h]
  refine ⟨h0, hpos, ?_, fun h => ?_⟩
  · rw [get_full_transactions_for_address_page, h0]
  · rw [get_full_transactions_for_address_page, hpos h]

/-- Witness for C8 at `now = 777`, `before = 5`. -/
theorem C8_before_defaults_to_now_witness :
    effectiveBefore 777 0 = 777 ∧ effectiveBefore 777 5 = 5 ∧
    get_full_transactions_for_address_page [] "kaspa:q" 50 5 777 =
      pageWithCursor [] "kaspa:q" 50 5 := by
  have h := C8_before_defaults_to_now [] "kaspa:q" 50 5 777
  exact ⟨h.1, h.2.1 (by decide), h.2.2.2 (by decide)⟩

/-- C4: when every stored row of the address is at or after the effective
cursor (so the first query returns zero rows), the pager returns the
empty identifier set immediately: no headers, no boundary query, no
hydration call — a normal empty page, not an error. -/
theorem C4_empty_page_terminates (db : List TxAddrMapping) (address : String)
    (limit before now : Nat)
    (h : ∀ r ∈ db, r.address = address → effectiveBefore now before ≤ r.block_time) :
    get_full_transactions_for_address_page db address limit before now =
      { txIds := ∅, headers := [], events := [PageEvent.firstQuery] } := by
  have hfil : addressRowsBefore db address (effectiveBefore now before) = [] := by
    rw [addressRowsBefore, List.filter_eq_nil_iff]
    intro r hr
    simp only [decide_eq_true_eq, not_and]
    intro haddr
    exact Nat.not_lt.mpr (h r hr haddr)
  have hb : firstBatch db address limit (effectiveBefore now before) = [] := by
    rw [firstBatch, hfil]
    simp
  rw [get_full_transactions_for_address_page]
  exact pageWithCursor_of_empty (by rw [hb]; rfl)

/-- Witness for C4: one stored transaction at time 100, cursor 50. -/
theorem C4_empty_page_terminates_witness :
    get_full_transactions_for_address_page [⟨"kaspa:q", "A", 100⟩] "kaspa:q" 50 50 777 =
      { txIds := ∅, headers := [], events := [PageEvent.firstQuery] } :=
  C4_empty_page_terminates [⟨"kaspa:q", "A", 100⟩] "kaspa:q" 50 50 777 (by decide)

/-- C3 (counterexample): the empty-page response of the pager (lines
180-181 of the source) returns before the headers are set, so it carries
neither `X-Current-Page` nor `X-Oldest-Epoch-Millis`, contradicting the
claim that every response, including the empty-page case, carries them. -/
theorem C3_counterexample :
    "X-Current-Page" ∉
      ((get_full_transactions_for_address_page [] "kaspa:q" 50 10 777).headers.map Prod.fst) ∧
    "X-Oldest-Epoch-Millis" ∉
      ((get_full_transactions_for_address_page [] "kaspa:q" 50 10 777).headers.map Prod.fst) := by
  decide

/-- C3 (amended): every response of the pager whose first query returns
at least one row carries `X-Current-Page` equal to the size of the final
deduplicated identifier set and `X-Oldest-Epoch-Millis` equal to the
oldest `block_time` of the batch (the next cursor); the empty-page
response carries no headers at all. -/
theorem C3_headers_on_nonempty (db : List TxAddrMapping) (address : String)
    (limit before now : Nat) :
    (∀ lastRow,
      (firstBatch db address limit (effectiveBefore now before)).getLast? = some lastRow →
      (get_full_transactions_for_address_page db address limit before now).headers =
        [("X-Current-Page",
            toString (get_full_transactions_for_address_page db address limit before now).txIds.card),
         ("X-Oldest-Epoch-Millis", toString lastRow.block_time)]) ∧
    ((firstBatch db address limit (effectiveBefore now before)).getLast? = none →
      (get_full_transactions_for_address_page db address limit before now).headers = []) := by
  constructor
  · intro lastRow hl
    rw [get_full_transactions_for_address_page, pageWithCursor_of_last hl]
    simp only [pageNonEmpty]
  · intro hl
    rw [get_full_transactions_for_address_page, pageWithCursor_of_empty hl]

/-- Witness for C3 (amended): one stored transaction at time 100 yields
headers `X-Current-Page: 1` and `X-Oldest-Epoch-Millis: 100`. -/
theorem C3_headers_on_nonempty_witness :
    (get_full_transactions_for_address_page [⟨"kaspa:q", "A", 100⟩] "kaspa:q" 50 0 777).headers =
      [("X-Current-Page", "1"), ("X-Oldest-Epoch-Millis", "100")] := by
  have h := (C3_headers_on_nonempty [⟨"kaspa:q", "A", 100⟩] "kaspa:q" 50 0 777).1
    ⟨"kaspa:q", "A", 100⟩ (by decide)
  exact h.trans (by decide)

/-! ## Claim about the offset pager -/

/-- Example store for the offset pager: three transactions of
`kaspa:q` at descending times 30, 20, 10 (in scrambled physical order)
plus a row of another address. -/
def offsetExampleDb : List TxAddrMapping :=
  [⟨"kaspa:q", "B", 20⟩, ⟨"kaspa:q", "A", 30⟩, ⟨"kaspa:other", "X", 40⟩, ⟨"kaspa:q", "C", 10⟩]

/-- C7: the offset pager returns the identifiers of the rows of the
address ordered by `block_time` descending, with the first `offset` rows
skipped and at most `limit` rows taken: the result is that slice of the
descending-ordered projection, its length never exceeds `limit`, every
returned identifier belongs to a row of the address, the slice's
`block_time`s are non-increasing — and on a store with times
`[30, 20, 10]` the call with `limit = 1`, `offset = 0` returns only the
newest transaction `A`. -/
theorem C7_offset_pager (db : List TxAddrMapping) (address : String) (limit offset : Nat) :
    (get_full_transactions_for_address db address limit offset).length ≤ limit ∧
    get_full_transactions_for_address db address limit offset =
      ((((addressRows db address).insertionSort pageOrd).map (·.transaction_id)).drop
        offset).take limit ∧
    (∀ id ∈ get_full_transactions_for_address db address limit offset,
      ∃ r ∈ db, r.address = address ∧ r.transaction_id = id) ∧
    List.Sorted (· ≥ ·)
      (((((addressRows db address).insertionSort pageOrd).drop offset).take limit).map
        (·.block_time)) ∧
    get_full_transactions_for_address offsetExampleDb "kaspa:q" 1 0 = ["A"] := by
  refine ⟨?_, ?_, ?_, ?_, by decide⟩
  · simp only [get_full_transactions_for_address, List.length_map, List.length_take]
    exact min_le_left _ _
  · rw [get_full_transactions_for_address, List.map_take, List.map_drop]
  · intro id hid
    simp only [get_full_transactions_for_address, List.mem_map] at hid
    obtain ⟨r, hr, rfl⟩ := hid
    have hr2 : r ∈ (addressRows db address).insertionSort pageOrd :=
      List.drop_subset _ _ (List.take_subset _ _ hr)
    rw [List.mem_insertionSort] at hr2
    rw [addressRows, List.mem_filter] at hr2
    exact ⟨r, hr2.1, of_decide_eq_true hr2.2, rfl⟩
  · have hs : List.Sorted pageOrd ((addressRows db address).insertionSort pageOrd) :=
      List.sorted_insertionSort pageOrd _
    have hsub :
        ((((addressRows db address).insertionSort pageOrd).drop offset).take limit).Sublist
          ((addressRows db address).insertionSort pageOrd) :=
      (List.take_sublist _ _).trans (List.drop_sublist _ _)
    exact List.pairwise_map.mpr (List.Pairwise.sublist hsub hs)

/-- Witness for C7: the length bound and the concrete slice on the
example store with `limit = 1`, `offset = 0`. -/
theorem C7_offset_pager_witness :
    (get_full_transactions_for_address offsetExampleDb "kaspa:q" 1 0).length ≤ 1 ∧
    get_full_transactions_for_address offsetExampleDb "kaspa:q" 1 0 = ["A"] :=
  ⟨(C7_offset_pager offsetExampleDb "kaspa:q" 1 0).1,
   (C7_offset_pager offsetExampleDb "kaspa:q" 1 0).2.2.2.2⟩

/-! ## Claim C1: boundary query iff the page is full, with same-time union -/

/-- Store realizing the spec's gap scenario: four transactions of
`kaspa:q` at times `40 > 30 = 30 > 10`. -/
def boundaryExampleDb : List TxAddrMapping :=
  [⟨"kaspa:q", "A", 40⟩, ⟨"kaspa:q", "B", 30⟩, ⟨"kaspa:q", "C", 30⟩, ⟨"kaspa:q", "D", 10⟩]

/-- C1: for every address, limit (in the endpoint's validated range,
`1 ≤ limit`) and cursor, the pager's boundary query is issued if and only
if the first query returned exactly `limit` rows; and in that case every
transaction identifier of the address whose `block_time` equals the
oldest `block_time` of the batch is in the returned identifier set.  On
the store with times `40 > 30 = 30 > 10` and `limit = 3` this puts both
same-time transactions on the page, never just one. -/
theorem C1_boundary_query_iff_full (db : List TxAddrMapping) (address : String)
    (limit before now : Nat) (hlim : 1 ≤ limit) :
    ((PageEvent.boundaryQuery ∈
        (get_full_transactions_for_address_page db address limit before now).events) ↔
      (firstBatch db address limit (effectiveBefore now before)).length = limit) ∧
    ∀ lastRow,
      (firstBatch db address limit (effectiveBefore now before)).getLast? = some lastRow →
      (firstBatch db address limit (effectiveBefore now before)).length = limit →
      ∀ r ∈ db, r.address = address → r.block_time = lastRow.block_time →
        r.transaction_id ∈
          (get_full_transactions_for_address_page db address limit before now).txIds := by
  cases hl : (firstBatch db address limit (effectiveBefore now before)).getLast? with
  | none =>
    have hnil : firstBatch db address limit (effectiveBefore now before) = [] :=
      List.getLast?_eq_none_iff.mp hl
    constructor
    · rw [get_full_transactions_for_address_page, pageWithCursor_of_empty hl, hnil]
      simp only [List.length_nil]
      constructor
      · intro hmem
        exact absurd hmem (by decide)
      · intro h0
        omega
    · intro lastRow hlr
      exact absurd hlr (by simp)
  | some lastRow =>
    rw [get_full_transactions_for_address_page, pageWithCursor_of_last hl]
    constructor
    · by_cases hfull : (firstBatch db address limit (effectiveBefore now before)).length = limit <;>
        simp [pageNonEmpty, hfull]
    · intro lr hlr hfull r hr haddr hbt
      obtain rfl : lastRow = lr := Option.some.inj hlr
      simp only [pageNonEmpty, if_pos hfull]
      apply Finset.mem_union_right
      rw [List.mem_toFinset, sameBlockTimeIds]
      refine List.mem_map.mpr ⟨r, ?_, rfl⟩
      rw [List.mem_filter]
      exact ⟨hr, by simp [haddr, hbt]⟩

/-- Witness for C1 on the gap scenario: `limit = 3` makes the page full,
the boundary query is issued, and both transactions at the shared oldest
time 30 (`B` and `C`) are in the returned set. -/
theorem C1_boundary_query_iff_full_witness :
    (PageEvent.boundaryQuery ∈
      (get_full_transactions_for_address_page boundaryExampleDb "kaspa:q" 3 0 1000).events) ∧
    "B" ∈ (get_full_transactions_for_address_page boundaryExampleDb "kaspa:q" 3 0 1000).txIds ∧
    "C" ∈ (get_full_transactions_for_address_page boundaryExampleDb "kaspa:q" 3 0 1000).txIds := by
  have h := C1_boundary_query_iff_full boundaryExampleDb "kaspa:q" 3 0 1000 (by decide)
  refine ⟨h.1.mpr (by decide), ?_, ?_⟩
  · exact h.2 ⟨"kaspa:q", "C", 30⟩ (by decide) (by decide)
      ⟨"kaspa:q", "B", 30⟩ (by decide) rfl rfl
  · exact h.2 ⟨"kaspa:q", "C", 30⟩ (by decide) (by decide)
      ⟨"kaspa:q", "C", 30⟩ (by decide) rfl rfl

/-! ## Claim C5: deduplication of the identifier set -/

/-- The transaction identifiers the pager fetches, with multiplicity: the
first batch's ids in order, followed by the boundary query's ids when the
batch is full.  A transaction that both debits and credits the address
appears here once per mapping row. -/
def pageIdsWithMultiplicity (db : List TxAddrMapping) (address : String)
    (limit before : Nat) : List String :=
  ((firstBatch db address limit before).map (·.transaction_id)) ++
    (match (firstBatch db address limit before).getLast? with
     | none => []
     | some lastRow =>
       if (firstBatch db address limit before).length = limit then
         sameBlockTimeIds db address lastRow.block_time
       else [])

/-- C5: on every non-empty page, the returned identifier set is exactly
the deduplication of the fetched identifier list (so an id occurring in
several mapping rows is reported once), and the `X-Current-Page` header
reports the size of that deduplicated set, not the number of fetched
rows. -/
theorem C5_page_deduplicates (db : List TxAddrMapping) (address : String)
    (limit before now : Nat) (lastRow : TxAddrMapping)
    (hl : (firstBatch db address limit (effectiveBefore now before)).getLast? = some lastRow) :
    (get_full_transactions_for_address_page db address limit before now).txIds =
      (pageIdsWithMultiplicity db address limit (effectiveBefore now before)).toFinset ∧
    (get_full_transactions_for_address_page db address limit before now).txIds.card =
      (pageIdsWithMultiplicity db address limit (effectiveBefore now before)).dedup.length ∧
    ("X-Current-Page",
        toString
          ((pageIdsWithMultiplicity db address limit (effectiveBefore now before)).dedup.length)) ∈
      (get_full_transactions_for_address_page db address limit before now).headers := by
  rw [get_full_transactions_for_address_page, pageWithCursor_of_last hl]
  have h1 : (pageNonEmpty db address limit
        (firstBatch db address limit (effectiveBefore now before)) lastRow.block_time).txIds =
      (pageIdsWithMultiplicity db address limit (effectiveBefore now before)).toFinset := by
    simp only [pageNonEmpty, pageIdsWithMultiplicity, hl]
    by_cases hfull :
        (firstBatch db address limit (effectiveBefore now before)).length = limit <;>
      simp [hfull, List.toFinset_append]
  have hcard : (pageNonEmpty db address limit
        (firstBatch db address limit (effectiveBefore now before)) lastRow.block_time).txIds.card =
      (pageIdsWithMultiplicity db address limit (effectiveBefore now before)).dedup.length := by
    rw [h1, List.card_toFinset]
  refine ⟨h1, hcard, ?_⟩
  rw [← hcard]
  simp [pageNonEmpty]

/-- Witness for C5: the transaction `X` both debits and credits
`kaspa:q` at time 50 (two mapping rows), yet the page reports it once:
the fetched id list is `["X", "X", "Y"]` while the set has size 2 and the
header reads `2`. -/
theorem C5_page_deduplicates_witness :
    pageIdsWithMultiplicity
        [⟨"kaspa:q", "X", 50⟩, ⟨"kaspa:q", "X", 50⟩, ⟨"kaspa:q", "Y", 40⟩]
        "kaspa:q" 50 (effectiveBefore 777 0) = ["X", "X", "Y"] ∧
    (get_full_transactions_for_address_page
        [⟨"kaspa:q", "X", 50⟩, ⟨"kaspa:q", "X", 50⟩, ⟨"kaspa:q", "Y", 40⟩]
        "kaspa:q" 50 0 777).txIds.card = 2 ∧
    ("X-Current-Page", "2") ∈
      (get_full_transactions_for_address_page
        [⟨"kaspa:q", "X", 50⟩, ⟨"kaspa:q", "X", 50⟩, ⟨"kaspa:q", "Y", 40⟩]
        "kaspa:q" 50 0 777).headers := by
  have h := C5_page_deduplicates
    [⟨"kaspa:q", "X", 50⟩, ⟨"kaspa:q", "X", 50⟩, ⟨"kaspa:q", "Y", 40⟩]
    "kaspa:q" 50 0 777 ⟨"kaspa:q", "Y", 40⟩ (by decide)
  refine ⟨by decide, h.2.1.trans (by decide), ?_⟩
  have h3 := h.2.2
  rw [show toString ((pageIdsWithMultiplicity
      [⟨"kaspa:q", "X", 50⟩, ⟨"kaspa:q", "X", 50⟩, ⟨"kaspa:q", "Y", 40⟩]
      "kaspa:q" 50 (effectiveBefore 777 0)).dedup.length) = "2" from by decide] at h3
  exact h3

/-! ## Lemmas for claim C9 (determinism under storage reordering) -/

theorem sorted_getLast_le : ∀ {l : List TxAddrMapping} {a : TxAddrMapping},
    List.Sorted pageOrd l → l.getLast? = some a →
    ∀ r ∈ l, a.block_time ≤ r.block_time := by
  intro l
  induction l with
  | nil => intro a _ hl; simp at hl
  | cons x xs ih =>
    intro a hs hl r hr
    cases xs with
    | nil =>
      simp only [List.getLast?_singleton, Option.some.injEq] at hl
      subst hl
      rcases List.mem_singleton.mp hr with rfl
      exact le_refl _
    | cons y ys =>
      rw [List.getLast?_cons_cons] at hl
      have hpair := List.pairwise_cons.mp hs
      rcases List.mem_cons.mp hr with rfl | hmem
      · exact hpair.1 a (List.mem_of_mem_getLast? hl)
      · exact ih hpair.2 hl r hmem

theorem mem_take_of_key_gt {s : List TxAddrMapping} {limit : Nat} {lastRow r : TxAddrMapping}
    (hs : List.Sorted pageOrd s) (hl : (s.take limit).getLast? = some lastRow)
    (hr : r ∈ s) (hgt : lastRow.block_time < r.block_time) : r ∈ s.take limit := by
  have hsplit := List.take_append_drop limit s
  rw [← hsplit] at hr
  rcases List.mem_append.mp hr with h | h
  · exact h
  · exfalso
    have hs2 : List.Sorted pageOrd (s.take limit ++ s.drop limit) := by rw [hsplit]; exact hs
    have hrel := (List.pairwise_append.mp hs2).2.2 lastRow (List.mem_of_mem_getLast? hl) r h
    exact absurd hrel (not_le.mpr hgt)

theorem batch_union_boundary (db : List TxAddrMapping) (address : String)
    (limit before : Nat) (lastRow : TxAddrMapping)
    (hl : (firstBatch db address limit before).getLast? = some lastRow) :
    ((firstBatch db address limit before).map (·.transaction_id)).toFinset ∪
      (sameBlockTimeIds db address lastRow.block_time).toFinset =
    ((((addressRowsBefore db address before).insertionSort pageOrd).filter
        (fun r => decide (lastRow.block_time < r.block_time))).map
        (·.transaction_id)).toFinset ∪
      (sameBlockTimeIds db address lastRow.block_time).toFinset := by
  have hsorted : List.Sorted pageOrd ((addressRowsBefore db address before).insertionSort pageOrd) :=
    List.sorted_insertionSort pageOrd _
  have hbatch_sorted : List.Sorted pageOrd (firstBatch db address limit before) :=
    List.Pairwise.sublist (List.take_sublist _ _) hsorted
  apply Finset.Subset.antisymm
  · intro x hx
    rcases Finset.mem_union.mp hx with hx | hx
    · rw [List.mem_toFinset, List.mem_map] at hx
      obtain ⟨r, hr, rfl⟩ := hx
      have hge : lastRow.block_time ≤ r.block_time :=
        sorted_getLast_le hbatch_sorted hl r hr
      rcases lt_or_eq_of_le hge with hgt | heq
      · apply Finset.mem_union_left
        rw [List.mem_toFinset, List.mem_map]
        refine ⟨r, ?_, rfl⟩
        rw [List.mem_filter]
        exact ⟨List.take_subset _ _ hr, by simp [hgt]⟩
      · apply Finset.mem_union_right
        rw [List.mem_toFinset, sameBlockTimeIds, List.mem_map]
        have hr_mem : r ∈ addressRowsBefore db address before := by
          rw [← List.mem_insertionSort pageOrd]
          exact List.take_subset _ _ hr
        rw [addressRowsBefore, List.mem_filter] at hr_mem
        have hprops := of_decide_eq_true hr_mem.2
        refine ⟨r, ?_, rfl⟩
        rw [List.mem_filter]
        exact ⟨hr_mem.1, by simp [hprops.1, heq.symm]⟩
    · exact Finset.mem_union_right _ hx
  · intro x hx
    rcases Finset.mem_union.mp hx with hx | hx
    · rw [List.mem_toFinset, List.mem_map] at hx
      obtain ⟨r, hr, rfl⟩ := hx
      rw [List.mem_filter] at hr
      have hgt : lastRow.block_time < r.block_time := of_decide_eq_true hr.2
      apply Finset.mem_union_left
      rw [List.mem_toFinset, List.mem_map]
      exact ⟨r, mem_take_of_key_gt hsorted hl hr.1 hgt, rfl⟩
    · exact Finset.mem_union_right _ hx

theorem pageWithCursor_perm {db1 db2 : List TxAddrMapping} (address : String)
    (limit before : Nat) (hdb : db1.Perm db2) :
    pageWithCursor db1 address limit before = pageWithCursor db2 address limit before := by
  have hfilter : (addressRowsBefore db1 address before).Perm
      (addressRowsBefore db2 address before) := hdb.filter _
  have hs : ((addressRowsBefore db1 address before).insertionSort pageOrd).Perm
      ((addressRowsBefore db2 address before).insertionSort pageOrd) :=
    (List.perm_insertionSort _ _).trans (hfilter.trans (List.perm_insertionSort _ _).symm)
  have hsorted1 := List.sorted_insertionSort pageOrd (addressRowsBefore db1 address before)
  have hsorted2 := List.sorted_insertionSort pageOrd (addressRowsBefore db2 address before)
  haveI : IsAntisymm Nat (fun a b : Nat => b ≤ a) := ⟨fun a b h1 h2 => le_antisymm h2 h1⟩
  have hkeys : ((addressRowsBefore db1 address before).insertionSort pageOrd).map (·.block_time) =
      ((addressRowsBefore db2 address before).insertionSort pageOrd).map (·.block_time) := by
    have hmap1 : List.Sorted (fun a b : Nat => b ≤ a)
        (((addressRowsBefore db1 address before).insertionSort pageOrd).map (·.block_time)) :=
      List.pairwise_map.mpr hsorted1
    have hmap2 : List.Sorted (fun a b : Nat => b ≤ a)
        (((addressRowsBefore db2 address before).insertionSort pageOrd).map (·.block_time)) :=
      List.pairwise_map.mpr hsorted2
    exact List.eq_of_perm_of_sorted (hs.map _) hmap1 hmap2
  have hbatchkeys : (firstBatch db1 address limit before).map (·.block_time) =
      (firstBatch db2 address limit before).map (·.block_time) := by
    simp only [firstBatch]
    rw [List.map_take, List.map_take, hkeys]
  have hlen : (firstBatch db1 address limit before).length =
      (firstBatch db2 address limit before).length := by
    rw [← List.length_map (firstBatch db1 address limit before) (·.block_time), hbatchkeys,
      List.length_map]
  cases h1 : (firstBatch db1 address limit before).getLast? with
  | none =>
    have hnil1 : firstBatch db1 address limit before = [] := List.getLast?_eq_none_iff.mp h1
    have hnil2 : firstBatch db2 address limit before = [] := by
      have h := hbatchkeys
      rw [hnil1] at h
      simpa [List.map_eq_nil_iff] using h.symm
    rw [pageWithCursor_of_empty h1, pageWithCursor_of_empty (by rw [hnil2]; rfl)]
  | some lastRow1 =>
    have hlast : Option.map (·.block_time) (firstBatch db1 address limit before).getLast? =
        Option.map (·.block_time) (firstBatch db2 address limit before).getLast? := by
      rw [← List.getLast?_map, ← List.getLast?_map, hbatchkeys]
    cases h2 : (firstBatch db2 address limit before).getLast? with
    | none =>
      rw [h1, h2] at hlast
      simp at hlast
    | some lastRow2 =>
      rw [h1, h2] at hlast
      simp only [Option.map_some'] at hlast
      have hbt : lastRow1.block_time = lastRow2.block_time := Option.some.inj hlast
      rw [pageWithCursor_of_last h1, pageWithCursor_of_last h2, ← hbt]
      have hboundary : (sameBlockTimeIds db1 address lastRow1.block_time).toFinset =
          (sameBlockTimeIds db2 address lastRow1.block_time).toFinset :=
        List.toFinset_eq_of_perm _ _ ((hdb.filter _).map _)
      by_cases hfull : (firstBatch db1 address limit before).length = limit
      · have hfull2 : (firstBatch db2 address limit before).length = limit := by
          rw [← hlen]
          exact hfull
        have e1 := batch_union_boundary db1 address limit before lastRow1 h1
        have e2 := batch_union_boundary db2 address limit before lastRow2 h2
        rw [← hbt] at e2
        have estrict :
            ((((addressRowsBefore db1 address before).insertionSort pageOrd).filter
              (fun r => decide (lastRow1.block_time < r.block_time))).map
              (·.transaction_id)).toFinset =
            ((((addressRowsBefore db2 address before).insertionSort pageOrd).filter
              (fun r => decide (lastRow1.block_time < r.block_time))).map
              (·.transaction_id)).toFinset :=
          List.toFinset_eq_of_perm _ _ ((hs.filter _).map _)
        have hids : ((firstBatch db1 address limit before).map (·.transaction_id)).toFinset ∪
            (sameBlockTimeIds db1 address lastRow1.block_time).toFinset =
            ((firstBatch db2 address limit before).map (·.transaction_id)).toFinset ∪
            (sameBlockTimeIds db2 address lastRow1.block_time).toFinset := by
          rw [e1, estrict, hboundary]
          exact e2.symm
        simp only [pageNonEmpty, if_pos hfull, if_pos hfull2]
        rw [hids]
      · have hfull2 : ¬(firstBatch db2 address limit before).length = limit := by
          rw [← hlen]
          exact hfull
        have hlen1 : ((addressRowsBefore db1 address before).insertionSort pageOrd).length ≤
            limit := by
          rcases le_or_lt ((addressRowsBefore db1 address before).insertionSort pageOrd).length
            limit with h | h
          · exact h
          · exfalso
            apply hfull
            simp only [firstBatch, List.length_take]
            exact min_eq_left (le_of_lt h)
        have hlen2 : ((addressRowsBefore db2 address before).insertionSort pageOrd).length ≤
            limit := by
          rw [← hs.length_eq]
          exact hlen1
        have hb1 : firstBatch db1 address limit before =
            (addressRowsBefore db1 address before).insertionSort pageOrd := by
          simp only [firstBatch]
          exact List.take_of_length_le hlen1
        have hb2 : firstBatch db2 address limit before =
            (addressRowsBefore db2 address before).insertionSort pageOrd := by
          simp only [firstBatch]
          exact List.take_of_length_le hlen2
        have hperm_batch : (firstBatch db1 address limit before).Perm
            (firstBatch db2 address limit before) := by
          rw [hb1, hb2]
          exact hs
        have hids : ((firstBatch db1 address limit before).map (·.transaction_id)).toFinset =
            ((firstBatch db2 address limit before).map (·.transaction_id)).toFinset :=
          List.toFinset_eq_of_perm _ _ (hperm_batch.map _)
        simp only [pageNonEmpty, if_neg hfull, if_neg hfull2]
        rw [hids]

/-! ## Claim C9 -/

/-- Two physical orders of the same store, differing in the relative
order of the two time-30 rows that tie at the `limit = 2` boundary. -/
def permExampleDb1 : List TxAddrMapping :=
  [⟨"kaspa:q", "B", 30⟩, ⟨"kaspa:q", "A", 40⟩, ⟨"kaspa:q", "C", 30⟩, ⟨"kaspa:q", "D", 10⟩]

/-- A permutation of `permExampleDb1` (ties swapped). -/
def permExampleDb2 : List TxAddrMapping :=
  [⟨"kaspa:q", "C", 30⟩, ⟨"kaspa:q", "A", 40⟩, ⟨"kaspa:q", "B", 30⟩, ⟨"kaspa:q", "D", 10⟩]

/-- C9: the page computation is a deterministic function of the store's
row multiset: evaluating the same request (same address, limit, cursor
and wall clock) over the same unchanged store yields an identical
identifier set, identical headers (hence identical `oldest_block_time`)
and identical events, even when the storage engine hands back tied rows
in a different order between the two evaluations. -/
theorem C9_page_idempotent (db1 db2 : List TxAddrMapping) (address : String)
    (limit before now : Nat) (hdb : db1.Perm db2) :
    get_full_transactions_for_address_page db1 address limit before now =
      get_full_transactions_for_address_page db2 address limit before now := by
  simp only [get_full_transactions_for_address_page]
  exact pageWithCursor_perm address limit (effectiveBefore now before) hdb

/-- Witness for C9: with `limit = 2` the first query truncates inside the
time-30 tie, and the two physical orders select different rows there —
yet both evaluations return the same page. -/
theorem C9_page_idempotent_witness :
    get_full_transactions_for_address_page permExampleDb1 "kaspa:q" 2 0 1000 =
      get_full_transactions_for_address_page permExampleDb2 "kaspa:q" 2 0 1000 :=
  C9_page_idempotent permExampleDb1 permExampleDb2 "kaspa:q" 2 0 1000 (by decide)
